import Mathlib

/-!
Verification development for the hermes-log-analyst diagnostic-collection core
(src-tauri/src/crash.rs, src-tauri/src/logs/{mod,linux,macos,windows}.rs).

The Rust code is shallowly embedded: pure functions become Lean functions,
machine integers become Nat with explicit reduction modulo 2 ^ 64 where u64
wrap-around semantics matter, filesystem and subprocess interaction is
represented by explicit input data (directory trees, the list of lines a
subprocess produced, its exit outcome), and external libraries (serde_json,
chrono, the Win32 event API) are black-boxed as parameters or as input data.
-/

/-! ### Generic string helpers (models of Rust std string operations) -/

/-- Model of Rust u8::to_ascii_lowercase on a single character. -/
def asciiLowerChar (c : Char) : Char :=
  if 65 ≤ c.toNat && c.toNat ≤ 90 then Char.ofNat (c.toNat + 32) else c

/-- Model of str::to_ascii_lowercase. -/
def asciiLower (s : String) : String :=
  String.mk (s.data.map asciiLowerChar)

/-- Model of str::eq_ignore_ascii_case. -/
def eqIgnoreAsciiCase (a b : String) : Bool :=
  asciiLower a == asciiLower b

/-- List-of-chars starts-with check (helper for the substring search). -/
def charsStartWith : List Char → List Char → Bool
  | [], _ => true
  | _ :: _, [] => false
  | a :: as, b :: bs => a == b && charsStartWith as bs

/-- Model of str::contains (substring search over the character list). -/
def charsContain (pat : List Char) : List Char → Bool
  | [] => pat.isEmpty
  | c :: rest => charsStartWith pat (c :: rest) || charsContain pat rest

/-- Model of str::contains on strings. -/
def containsSubstr (s pat : String) : Bool :=
  charsContain pat.data s.data

/-- Rust char::is_whitespace (the Unicode White_Space code points). -/
def isRustWhitespace (c : Char) : Bool :=
  let n := c.toNat
  (9 ≤ n && n ≤ 13) || n == 32 || n == 133 || n == 160 || n == 5760
    || (8192 ≤ n && n ≤ 8202) || n == 8232 || n == 8233 || n == 8239
    || n == 8287 || n == 12288

/-- Trim whitespace from both ends of a character list. -/
def trimChars (cs : List Char) : List Char :=
  ((cs.dropWhile isRustWhitespace).reverse.dropWhile isRustWhitespace).reverse

/-- Model of str::trim. -/
def rustTrim (s : String) : String :=
  String.mk (trimChars s.data)

/-- Model of str::trim().is_empty(). -/
def trimEmpty (s : String) : Bool :=
  (trimChars s.data).isEmpty

/-- Split a character list at the first occurrence of a separator. -/
def splitOnceChars (sep : Char) : List Char → Option (List Char × List Char)
  | [] => none
  | c :: rest =>
    if c == sep then some ([], rest)
    else (splitOnceChars sep rest).map (fun p => (c :: p.1, p.2))

/-- Model of str::split_once with a char pattern. -/
def splitOnce (line : String) (sep : Char) : Option (String × String) :=
  (splitOnceChars sep line.data).map (fun p => (String.mk p.1, String.mk p.2))

/-- Split a character list at every occurrence of a separator. -/
def splitChars (sep : Char) : List Char → List (List Char)
  | [] => [[]]
  | c :: rest =>
    match splitChars sep rest with
    | [] => [[c]]
    | h :: t => if c == sep then [] :: h :: t else (c :: h) :: t

/-- Digit run to number (helper for the integer parsers). -/
def digitsToNat (cs : List Char) : Option Nat :=
  if cs.isEmpty then none
  else if cs.all (fun c => 48 ≤ c.toNat && c.toNat ≤ 57) then
    some (cs.foldl (fun acc c => acc * 10 + (c.toNat - 48)) 0)
  else none

/-- Model of str::parse for an unsigned integer: optional plus sign then
decimal digits. -/
def parseUnsigned (s : String) : Option Nat :=
  match s.data with
  | c :: rest => if c == Char.ofNat 43 then digitsToNat rest else digitsToNat s.data
  | [] => none

/-- Model of str::parse::<i64>: optional sign, decimal digits, i64 range. -/
def parseI64 (s : String) : Option Int :=
  let signed : Option Int :=
    match s.data with
    | c :: rest =>
      if c == Char.ofNat 45 then (digitsToNat rest).map (fun n => -(n : Int))
      else if c == Char.ofNat 43 then (digitsToNat rest).map (fun n => (n : Int))
      else (digitsToNat s.data).map (fun n => (n : Int))
    | [] => none
  signed.bind (fun n => if -(2 ^ 63) ≤ n ∧ n ≤ 2 ^ 63 - 1 then some n else none)

/-! ### UTF-8 and the DefaultHasher (SipHash-1-3) id hash

crash.rs stable_id feeds the seed string to
std::collections::hash_map::DefaultHasher, which is SipHash-1-3 with both
keys zero; Hash for str writes the UTF-8 bytes followed by one 0xff byte.
All 64-bit arithmetic is modelled on Nat with explicit reduction mod 2 ^ 64.
-/

/-- UTF-8 encoding of one scalar value, as byte values. -/
def utf8BytesChar (c : Char) : List Nat :=
  let n := c.toNat
  if n < 128 then [n]
  else if n < 2048 then [192 ||| (n >>> 6), 128 ||| (n &&& 63)]
  else if n < 65536 then
    [224 ||| (n >>> 12), 128 ||| ((n >>> 6) &&& 63), 128 ||| (n &&& 63)]
  else
    [240 ||| (n >>> 18), 128 ||| ((n >>> 12) &&& 63),
     128 ||| ((n >>> 6) &&& 63), 128 ||| (n &&& 63)]

/-- UTF-8 bytes of a string (model of str::as_bytes). -/
def strBytes (s : String) : List Nat :=
  s.data.flatMap utf8BytesChar

/-- u64 wrapping addition. -/
def wadd (a b : Nat) : Nat := (a + b) % 2 ^ 64

/-- u64 rotate left. -/
def rotl (x r : Nat) : Nat := ((x <<< r) ||| (x >>> (64 - r))) % 2 ^ 64

/-- u64 xor. -/
def xor64 (a b : Nat) : Nat := (a ^^^ b) % 2 ^ 64

/-- The four 64-bit SipHash state words. -/
structure SipState where
  v0 : Nat
  v1 : Nat
  v2 : Nat
  v3 : Nat

/-- One SipHash round. -/
def sipround (s : SipState) : SipState :=
  let v0 := wadd s.v0 s.v1
  let v1 := rotl s.v1 13
  let v1 := xor64 v1 v0
  let v0 := rotl v0 32
  let v2 := wadd s.v2 s.v3
  let v3 := rotl s.v3 16
  let v3 := xor64 v3 v2
  let v0 := wadd v0 v3
  let v3 := rotl v3 21
  let v3 := xor64 v3 v0
  let v2 := wadd v2 v1
  let v1 := rotl v1 17
  let v1 := xor64 v1 v2
  let v2 := rotl v2 32
  SipState.mk v0 v1 v2 v3

/-- Absorb one message word (SipHash-1-3 uses one compression round). -/
def sipCompress (m : Nat) (s : SipState) : SipState :=
  let s := { s with v3 := xor64 s.v3 m }
  let s := sipround s
  { s with v0 := xor64 s.v0 m }

/-- Little-endian value of a byte list. -/
def le64 : List Nat → Nat
  | [] => 0
  | b :: rest => b % 256 + 256 * le64 rest

/-- Split a byte stream into full 8-byte blocks plus the tail. -/
def toBlocks : List Nat → List (List Nat) × List Nat
  | b0 :: b1 :: b2 :: b3 :: b4 :: b5 :: b6 :: b7 :: rest =>
    let r := toBlocks rest
    ([b0, b1, b2, b3, b4, b5, b6, b7] :: r.1, r.2)
  | rest => ([], rest)

/-- SipHash-1-3 with zero keys over a byte stream: the value
DefaultHasher::finish returns after the stream was written. -/
def siphash13 (bytes : List Nat) : Nat :=
  let init : SipState :=
    SipState.mk 0x736f6d6570736575 0x646f72616e646f6d
      0x6c7967656e657261 0x7465646279746573
  let blocks := toBlocks bytes
  let s := blocks.1.foldl (fun s blk => sipCompress (le64 blk) s) init
  let b := (((bytes.length % 256) <<< 56) ||| le64 blocks.2) % 2 ^ 64
  let s := sipCompress b s
  let s := { s with v2 := xor64 s.v2 255 }
  let s := sipround (sipround (sipround s))
  xor64 (xor64 s.v0 s.v1) (xor64 s.v2 s.v3)

/-- seed.hash(&mut hasher); hasher.finish(): Hash for str writes the UTF-8
bytes then a single 0xff terminator byte. -/
def defaultHashStr (s : String) : Nat :=
  siphash13 (strBytes s ++ [255])

/-- Lowercase hex digit for a value below 16. -/
def hexDigitChar (n : Nat) : Char :=
  if n < 10 then Char.ofNat (48 + n) else Char.ofNat (87 + n)

/-- The 16 zero-padded lowercase hex digits of a u64: the rendering the
format string of crash.rs stable_id produces for a 64-bit value. -/
def hexDigits16 (n : Nat) : List Char :=
  (List.range 16).reverse.map (fun i => hexDigitChar (n / 16 ^ i % 16))

/-- crash.rs stable_id: hash the seed with DefaultHasher and render the
64-bit result zero-padded to 16 lowercase hex digits after the prefix. -/
def stable_id (seed : String) : String :=
  "imported-" ++ String.mk (hexDigits16 (defaultHashStr seed))

/-- Recognizer for a lowercase hexadecimal digit character. -/
def isLowerHexDigit (c : Char) : Bool :=
  (48 ≤ c.toNat && c.toNat ≤ 57) || (97 ≤ c.toNat && c.toNat ≤ 102)

/-! ### CrashRecord and the imported-crash constructor (crash.rs) -/

/-- crash.rs CrashRecord. -/
structure CrashRecord where
  id : String
  timestamp : String
  os : String
  source : String
  crash_type : String
  code : Option String
  summary : String
  suspected_component : Option String
  raw_path : Option String
  imported : Bool
deriving DecidableEq

/-- crash.rs build_imported_crash: the record CrashRecord::new builds after
its random id and wall-clock timestamp were overwritten with the seed hash
and the supplied timestamp.  The raw path is modelled as the lossy string
the source derives from the Path argument. -/
def build_imported_crash (os source crash_type : String) (code : Option String)
    (summary : String) (suspected_component : Option String)
    (raw_path : Option String) (timestamp : String) : CrashRecord :=
  let seed := os ++ "|" ++ source ++ "|" ++ crash_type ++ "|" ++ raw_path.getD summary
  { id := stable_id seed
    timestamp := timestamp
    os := os
    source := source
    crash_type := crash_type
    code := code
    summary := summary
    suspected_component := suspected_component
    raw_path := raw_path
    imported := true }

/-! ### Dedup, ranking and the import limit (crash.rs) -/

/-- The descending-timestamp comparator of crash.rs dedupe_and_limit:
sort_by compares right.timestamp against left.timestamp, so the list is
sorted with larger (later) timestamp strings first. -/
def tsDesc (left right : CrashRecord) : Bool :=
  decide (right.timestamp ≤ left.timestamp)

/-- The HashSet-based retain of crash.rs dedupe_and_limit: keep a record
when its id was not inserted before (first occurrence wins). -/
def dedupById : List CrashRecord → List String → List CrashRecord
  | [], _ => []
  | c :: rest, seen =>
    if seen.contains c.id then dedupById rest seen
    else c :: dedupById rest (c.id :: seen)

/-- crash.rs dedupe_and_limit: dedupe by id, stable-sort by timestamp
descending, truncate to the limit. -/
def dedupe_and_limit (crashes : List CrashRecord) (limit : Nat) : List CrashRecord :=
  (((dedupById crashes []).mergeSort tsDesc).take limit)

/-- Rust usize::clamp with lower bound lo and upper bound hi. -/
def clampNat (n lo hi : Nat) : Nat := Nat.max lo (Nat.min n hi)

/-- crash.rs import_host_crashes after the platform importer parsed the
scanner-discovered artifacts into records: the caller limit is clamped to
[1, 2000] and the per-platform importer ends with dedupe_and_limit at the
clamped value.  The parsed records stand in for the filesystem contents. -/
def import_host_crashes (parsed : List CrashRecord) (limit : Nat) : List CrashRecord :=
  dedupe_and_limit parsed (clampNat limit 1 2000)

/-! ### The bounded filesystem scanner (crash.rs scan_files)

A directory tree is data: symlink_metadata results are encoded in the node
(fs::symlink_metadata does not follow links, so a symlink is a leaf that is
neither a directory nor a regular file, and a symlink cycle cannot appear
as a directory edge). -/

/-- One filesystem entry as crash.rs scan_files observes it. -/
inductive FsTree where
  /-- Regular file; mtime is none when meta.modified() fails. -/
  | file (path : String) (mtime : Option Nat) : FsTree
  /-- Readable directory with its read_dir children in order. -/
  | dir (path : String) (children : List FsTree) : FsTree
  /-- Directory whose read_dir fails: skipped. -/
  | dirUnreadable (path : String) : FsTree
  /-- Entry whose symlink_metadata fails: skipped. -/
  | metaUnreadable (path : String) : FsTree
  /-- Entry that is neither directory nor regular file (symlink, socket):
  skipped without traversal. -/
  | notFile (path : String) : FsTree

/-- Structural weight used as the termination measure of the explicit-stack
traversal. -/
def fsSize : List FsTree → Nat
  | [] => 0
  | .dir _ cs :: rest => 1 + fsSize cs + fsSize rest
  | _ :: rest => 1 + fsSize rest

theorem fsSize_append (a b : List FsTree) : fsSize (a ++ b) = fsSize a + fsSize b := by
  induction a with
  | nil => simp [fsSize]
  | cons t rest ih =>
    cases t <;> simp [fsSize, ih] <;> omega

theorem fsSize_reverse (a : List FsTree) : fsSize a.reverse = fsSize a := by
  induction a with
  | nil => rfl
  | cons t rest ih =>
    cases t <;> simp [fsSize, List.reverse_cons, fsSize_append, ih] <;> omega

/-- The while-let stack loop of crash.rs scan_files.  The Lean list head is
the top of the Rust Vec stack; a directory pushes its children so that the
first child is popped first only after the later ones, hence the reverse.
Matching files are appended to the accumulator in traversal order. -/
def scanGo (matcher : String → Bool) : List FsTree → List (String × Nat) → List (String × Nat)
  | [], acc => acc
  | .metaUnreadable _ :: rest, acc => scanGo matcher rest acc
  | .dirUnreadable _ :: rest, acc => scanGo matcher rest acc
  | .notFile _ :: rest, acc => scanGo matcher rest acc
  | .dir _ cs :: rest, acc => scanGo matcher (cs.reverse ++ rest) acc
  | .file p mt :: rest, acc =>
    scanGo matcher rest (if matcher p then acc ++ [(p, mt.getD 0)] else acc)
termination_by stack _ => fsSize stack
decreasing_by
  all_goals (simp [fsSize, fsSize_append, fsSize_reverse]; try omega)

/-- All regular files of a forest with their mtimes (modified() failure
falls back to the epoch), in the same traversal order. -/
def treeFiles : List FsTree → List (String × Nat)
  | [] => []
  | .metaUnreadable _ :: rest => treeFiles rest
  | .dirUnreadable _ :: rest => treeFiles rest
  | .notFile _ :: rest => treeFiles rest
  | .dir _ cs :: rest => treeFiles (cs.reverse ++ rest)
  | .file p mt :: rest => (p, mt.getD 0) :: treeFiles rest
termination_by stack => fsSize stack
decreasing_by
  all_goals (simp [fsSize, fsSize_append, fsSize_reverse]; try omega)

/-- The descending-mtime comparator of crash.rs scan_files. -/
def mtimeDesc (left right : String × Nat) : Bool :=
  decide (right.2 ≤ left.2)

/-- crash.rs scan_files: traverse the roots (stack seeded with the roots,
popped from the end), collect matching files with their mtimes, stable-sort
by mtime descending, truncate to the cap and keep the paths. -/
def scan_files (roots : List FsTree) (matcher : String → Bool) (max_scan : Nat) : List String :=
  (((scanGo matcher roots.reverse []).mergeSort mtimeDesc).take max_scan).map Prod.fst

/-! ### The line-capped file reader (crash.rs read_lines_limited) -/

/-- The loop of crash.rs read_lines_limited over the lines the reader
yields inside the take(max_lines) window: a read error (none) is skipped
but still consumed from the line budget; an ok line is appended after its
byte length (newline excluded, as BufRead::lines strips it) is added to the
running count, and the loop stops once the count reached max_bytes. -/
def readLoop (maxBytes : Nat) : List (Option String) → Nat → List String
  | [], _ => []
  | none :: rest, seen => readLoop maxBytes rest seen
  | some l :: rest, seen =>
    let seen := seen + l.utf8ByteSize
    l :: (if maxBytes ≤ seen then [] else readLoop maxBytes rest seen)

/-- crash.rs read_lines_limited for a readable file whose reader yields the
given line results (an unreadable file yields the empty list upstream). -/
def read_lines_limited (input : List (Option String)) (maxLines maxBytes : Nat) : List String :=
  readLoop maxBytes (input.take maxLines) 0

/-- Total byte size of the returned lines (newlines are not part of the
lines and are not counted). -/
def byteSum (lines : List String) : Nat :=
  (lines.map String.utf8ByteSize).sum

/-! ### Apport crash-report parsing (crash.rs parse_linux_report)

Path accessor results (extension, file_name, the lossy path string) are
inputs, the file contents are the list of lines read_lines_limited
returned. -/

/-- The field map the parser builds: later lines overwrite earlier ones for
the same key, exactly like HashMap::insert. -/
def fieldEntries (sep : Char) (lines : List String) : List (String × String) :=
  lines.filterMap
    (fun l => (splitOnce l sep).map (fun kv => (rustTrim kv.1, rustTrim kv.2)))

/-- HashMap::get against the entry list: the last insert for a key wins. -/
def mapGet (entries : List (String × String)) (key : String) : Option String :=
  (entries.reverse.find? (fun e => e.1 == key)).map (fun e => e.2)

/-- crash.rs pick_map_value: first key in order whose stored value trims to
something non-empty. -/
def pick_map_value (entries : List (String × String)) : List String → Option String
  | [] => none
  | key :: keys =>
    match mapGet entries key with
    | some value =>
      if trimEmpty value then pick_map_value entries keys else some (rustTrim value)
    | none => pick_map_value entries keys

/-- crash.rs trim_file_name: file_name().and_then(to_str) with the unknown
fallback; the Option input is the black-boxed Path accessor result. -/
def trim_file_name (fileName : Option String) : String :=
  fileName.getD "unknown"

/-- crash.rs basename: the file-name portion of a path string, modelled as
the last non-empty slash-separated component (Path::file_name yields none
for empty paths, roots, and dot components). -/
def basename (path : String) : Option String :=
  match ((splitChars (Char.ofNat 47) path.data).filter (fun c => !c.isEmpty)).getLast? with
  | some c =>
    if String.mk c == "." || String.mk c == ".." then none else some (String.mk c)
  | none => none

/-- crash.rs parse_linux_report.  Inputs: the lines read_lines_limited
yielded (cap 400 lines / 256KB applied upstream), the black-boxed Path
accessor results ext and fileName, the lossy path string and the
file-modification timestamp. -/
def parse_linux_report (lines : List String) (ext : String) (fileName : Option String)
    (pathStr : String) (timestamp : String) : CrashRecord :=
  if eqIgnoreAsciiCase ext "crash" then
    let fields := fieldEntries (Char.ofNat 58) lines
    let crash_type := (pick_map_value fields ["ProblemType"]).getD "Crash"
    let code := pick_map_value fields ["Signal", "SignalName", "CrashCounter"]
    let executable := pick_map_value fields ["ExecutablePath", "ProcCmdline"]
    let summary :=
      match pick_map_value fields ["Title"] with
      | some title => title
      | none =>
        match executable with
        | some exec => crash_type ++ ": " ++ (basename exec).getD exec
        | none => crash_type ++ ": " ++ trim_file_name fileName
    build_imported_crash "linux" "apport" crash_type code summary
      ((executable.bind basename).or executable) (some pathStr) timestamp
  else
    let file_name := trim_file_name fileName
    let guessed_process := ((splitChars (Char.ofNat 46) file_name.data).get? 1).map String.mk
    build_imported_crash "linux" "systemd-coredump" "Core Dump" none
      ("Core dump: " ++ file_name) guessed_process (some pathStr) timestamp

/-! ### Normalized events and the adapter taxonomy (logs/mod.rs) -/

/-- logs/mod.rs SupportedOs. -/
inductive SupportedOs where
  | windows
  | linux
  | macos
deriving DecidableEq

/-- The lowercase display string of SupportedOs. -/
def SupportedOs.str : SupportedOs → String
  | .windows => "windows"
  | .linux => "linux"
  | .macos => "macos"

/-- logs/mod.rs NormalizedEvent. -/
structure NormalizedEvent where
  id : String
  timestamp : String
  os : String
  log_name : String
  category : String
  provider : String
  event_id : Option Nat
  severity : String
  message : String
  imported : Bool
deriving DecidableEq

/-- logs/mod.rs NormalizedEvent::new: the random id and the collection-time
timestamp are ambient inputs (freshId, now); imported is always false. -/
def NormalizedEvent.new (freshId now : String) (os : SupportedOs)
    (log_name category provider : String) (event_id : Option Nat)
    (severity message : String) : NormalizedEvent :=
  { id := freshId
    timestamp := now
    os := os.str
    log_name := log_name
    category := category
    provider := provider
    event_id := event_id
    severity := severity
    message := message
    imported := false }

/-- logs/mod.rs CollectionResult. -/
structure CollectionResult where
  events : List NormalizedEvent := []
  warnings : List String := []
  errors : List String := []
deriving DecidableEq

/-! ### The journal adapter (logs/linux.rs) -/

/-- A serde_json value, restricted to what the adapters inspect. -/
inductive Json where
  | str (s : String)
  | num (n : Int)
  | bool (b : Bool)
  | null
  | arr (elems : List Json)
  | obj (fields : List (String × Json))

/-- serde_json Value::get on an object (object keys are unique, so the
first binding is the binding). -/
def Json.get (v : Json) (key : String) : Option Json :=
  match v with
  | .obj fields => (fields.find? (fun f => f.1 == key)).map (fun f => f.2)
  | _ => none

/-- Value::as_str. -/
def Json.asStr : Json → Option String
  | .str s => some s
  | _ => none

/-- logs/linux.rs get_string. -/
def getString (v : Json) (key : String) : Option String :=
  (v.get key).bind Json.asStr

/-- logs/linux.rs pick_value (same shape in macos.rs): the first candidate
that is present and does not trim to empty. -/
def pick_value (values : List (Option String)) : Option String :=
  (values.filterMap id).find? (fun value => !trimEmpty value)

/-- The string built by logs/linux.rs map_category before lowercasing:
every present value followed by one space. -/
def combineValues (values : List (Option String)) : String :=
  values.foldl (fun acc v => match v with | some s => acc ++ s ++ " " | none => acc) ""

/-- logs/linux.rs map_category: ordered keyword buckets over the combined
lowercased string.  The third bucket checks kernel, systemd, dbus and udev
only. -/
def map_category (values : List (Option String)) : String :=
  let lower := asciiLower (combineValues values)
  if containsSubstr lower "audit" then "audit"
  else if containsSubstr lower "auth" || containsSubstr lower "ssh"
      || containsSubstr lower "sudo" || containsSubstr lower "security" then "security"
  else if containsSubstr lower "kernel" || containsSubstr lower "systemd"
      || containsSubstr lower "dbus" || containsSubstr lower "udev" then "system"
  else "application"

/-- Rust u8::from_str: parse then enforce the u8 range. -/
def parseU8 (s : String) : Option Nat :=
  (parseUnsigned s).bind (fun n => if n ≤ 255 then some n else none)

/-- logs/linux.rs map_severity over the native priority string. -/
def map_severity (priority : Option String) : String :=
  match priority.bind parseU8 with
  | some 0 => "critical"
  | some 1 => "critical"
  | some 2 => "critical"
  | some 3 => "error"
  | some 4 => "warning"
  | some _ => "information"
  | none => "information"

/-- logs/linux.rs sanitize_message (same shape in macos.rs): a fixed
placeholder replaces text that trims to empty. -/
def sanitize_message (message : String) : String :=
  if trimEmpty message then "No log message." else message

/-- logs/linux.rs parse_journal_timestamp: the realtime field holds
microseconds as string or number; the chrono conversion of microseconds to
an RFC-3339 instant is the black-boxed tsOfMicros. -/
def parse_journal_timestamp (tsOfMicros : Int → Option String) (v : Json) : Option String :=
  match (v.get "__REALTIME_TIMESTAMP").or (v.get "_SOURCE_REALTIME_TIMESTAMP") with
  | some (.str s) => (parseI64 s).bind tsOfMicros
  | some (.num n) => tsOfMicros n
  | _ => none

/-- logs/linux.rs parse_journal_line after serde_json succeeded on the line
(the serde parse itself is black-boxed at the caller).  freshId and now are
the ambient Uuid and collection instant. -/
def normalizeJournal (tsOfMicros : Int → Option String) (freshId now : String)
    (value : Json) : NormalizedEvent :=
  let message := (getString value "MESSAGE").getD "No log message."
  let identifier := getString value "SYSLOG_IDENTIFIER"
  let comm := getString value "_COMM"
  let unit := getString value "_SYSTEMD_UNIT"
  let transport := getString value "_TRANSPORT"
  let log_name := (pick_value [identifier, comm, unit, transport]).getD "journal"
  let provider := (pick_value [comm, identifier, getString value "_EXE"]).getD "unknown"
  let category := map_category [identifier, comm, unit, transport, some provider]
  let severity := map_severity ((getString value "PRIORITY").or (getString value "SYSLOG_PRIORITY"))
  let event := NormalizedEvent.new freshId now .linux log_name category provider
    none severity (sanitize_message message)
  match parse_journal_timestamp tsOfMicros value with
  | some timestamp => { event with timestamp := timestamp }
  | none => event

/-- logs/linux.rs parse_journal_line: serde_json::from_str is the
black-boxed jsonParse; a line it rejects yields none. -/
def parse_journal_line (jsonParse : String → Option Json)
    (tsOfMicros : Int → Option String) (freshId now : String)
    (line : String) : Option NormalizedEvent :=
  (jsonParse line).map (normalizeJournal tsOfMicros freshId now)

/-! ### The subprocess collectors (logs/linux.rs, logs/macos.rs)

linux.rs collect_events_range and macos.rs collect_events_range are
line-for-line parallel; only the command, the diagnostic strings and the
per-line parser differ.  The subprocess is input data: either the spawn
failed, or the child had no stdout handle, or it produced a list of line
read results followed by a wait outcome. -/

/-- Outcome of child.wait(). -/
inductive WaitOutcome where
  | success
  | exited (status : String)
  | waitFail (err : String)

/-- The observable behaviour of the spawned subprocess. -/
inductive SpawnOutcome where
  | spawnFail (err : String)
  | noStdout
  | ok (lines : List (Option String)) (wait : WaitOutcome)

/-- The diagnostic strings a subprocess adapter formats. -/
structure SubStrings where
  spawnFailMsg : String → String
  noStdoutMsg : String
  readFailWarn : Nat → String
  parseFailWarn : Nat → String
  exitMsg : String → String
  waitFailMsg : String → String

/-- logs/linux.rs diagnostic strings. -/
def linuxStrings : SubStrings where
  spawnFailMsg := fun e => "Failed to run journalctl: " ++ e
  noStdoutMsg := "journalctl did not expose stdout."
  readFailWarn := fun n =>
    "Encountered " ++ toString n ++ " journalctl stdout read failure(s)."
  parseFailWarn := fun n =>
    "Skipped " ++ toString n ++ " non-JSON or malformed journal entries."
  exitMsg := fun s => "journalctl exited with status " ++ s ++ "."
  waitFailMsg := fun e => "Failed to wait for journalctl process: " ++ e

/-- logs/macos.rs diagnostic strings. -/
def macosStrings : SubStrings where
  spawnFailMsg := fun e => "Failed to run macOS log collector: " ++ e
  noStdoutMsg := "macOS log collector did not expose stdout."
  readFailWarn := fun n =>
    "Encountered " ++ toString n ++ " macOS log stdout read failure(s)."
  parseFailWarn := fun n =>
    "Skipped " ++ toString n ++ " non-JSON or malformed macOS log entries."
  exitMsg := fun s => "macOS log collector exited with status " ++ s ++ "."
  waitFailMsg := fun e => "Failed to wait for macOS log collector process: " ++ e

/-- The line loop shared by the two subprocess adapters: a read failure is
counted and skipped, a blank line is skipped, a parsed line is appended and
the loop breaks (killing the child) once the event count reaches max, an
unparsable line is counted.  Returns (events, parseFailures, readFailures). -/
def processLines (parseLine : String → Option NormalizedEvent) (max : Nat) :
    List (Option String) → List NormalizedEvent → Nat → Nat →
    List NormalizedEvent × Nat × Nat
  | [], events, pf, rf => (events, pf, rf)
  | none :: rest, events, pf, rf => processLines parseLine max rest events pf (rf + 1)
  | some line :: rest, events, pf, rf =>
    if trimEmpty line then processLines parseLine max rest events pf rf
    else
      match parseLine line with
      | some event =>
        if max ≤ events.length + 1 then (events ++ [event], pf, rf)
        else processLines parseLine max rest (events ++ [event]) pf rf
      | none => processLines parseLine max rest events (pf + 1) rf

/-- collect_events_range of logs/linux.rs and logs/macos.rs, over the
subprocess behaviour: clamp max (default 2000, cap 10000, zero returns the
default result immediately), surface spawn/stdout failures as the only
error, run the line loop, aggregate read/parse failures into one warning
each, and classify a bad wait outcome as error when no events were
collected and as warning otherwise. -/
def collectSub (strs : SubStrings) (parseLine : String → Option NormalizedEvent)
    (maxEvents : Option Nat) (outcome : SpawnOutcome) : CollectionResult :=
  let max := Nat.min (maxEvents.getD 2000) 10000
  if max = 0 then {} else
  match outcome with
  | .spawnFail e => { errors := [strs.spawnFailMsg e] }
  | .noStdout => { errors := [strs.noStdoutMsg] }
  | .ok lines wait =>
    let r := processLines parseLine max lines [] 0 0
    let events := r.1
    let pf := r.2.1
    let rf := r.2.2
    let warnings :=
      (if 0 < rf then [strs.readFailWarn rf] else [])
        ++ (if 0 < pf then [strs.parseFailWarn pf] else [])
    match wait with
    | .success => { events := events, warnings := warnings }
    | .exited status =>
      let message := strs.exitMsg status
      if events.isEmpty then { events := events, warnings := warnings, errors := [message] }
      else { events := events, warnings := warnings ++ [message] }
    | .waitFail e =>
      let message := strs.waitFailMsg e
      if events.isEmpty then { events := events, warnings := warnings, errors := [message] }
      else { events := events, warnings := warnings ++ [message] }

/-- logs/linux.rs collect_events_range with serde and chrono black-boxed. -/
def linux_collect_events_range (jsonParse : String → Option Json)
    (tsOfMicros : Int → Option String) (freshId now : String)
    (maxEvents : Option Nat) (outcome : SpawnOutcome) : CollectionResult :=
  collectSub linuxStrings (parse_journal_line jsonParse tsOfMicros freshId now)
    maxEvents outcome

/-! ### The Windows event-log adapter (logs/windows.rs)

The Win32 calls are input data per channel: EvtQuery either fails with a
win32 error code or succeeds, and a successful query either drains rendered
events or hits an EvtNext failure. -/

/-- ERROR_ACCESS_DENIED. -/
def ERROR_ACCESS_DENIED : Nat := 5

/-- Observable behaviour of one channel query. -/
inductive ChanOut where
  /-- EvtQuery returned a null handle with this GetLastError code. -/
  | openFail (code : Nat)
  /-- The query succeeded and EvtNext drained these rendered events. -/
  | drained (events : List NormalizedEvent)
  /-- The query succeeded but EvtNext failed with this code. -/
  | nextFail (code : Nat)

/-- logs/windows.rs collect_channel_events: access denial on the Security
channel yields an empty ok result; any other open failure and any EvtNext
failure yield an error string; a drained channel yields its events up to
max. -/
def collect_channel_events (channel : String) (out : ChanOut) (max : Nat) :
    Except String (List NormalizedEvent) :=
  match out with
  | .openFail code =>
    if code = ERROR_ACCESS_DENIED ∧ channel = "Security" then .ok []
    else .error ("EvtQuery failed for " ++ channel ++ ": win32 " ++ toString code)
  | .drained events => .ok (events.take max)
  | .nextFail code =>
    .error ("EvtNext failed for " ++ channel ++ ": win32 " ++ toString code)

/-- The sequential channel loop of logs/windows.rs collect_with_wevtapi:
stop once max events are collected; a successful channel marks had_channel
and appends; a failing Security channel only records the error and
continues; a failing non-Security channel aborts the whole call. -/
def wevtapiGo (env : String → ChanOut) (max : Nat) :
    List String → List NormalizedEvent → Bool → Option String →
    Except String (List NormalizedEvent)
  | [], events, had, lastErr =>
    if events.isEmpty ∧ ¬had then
      .error (lastErr.getD "No event channels available.")
    else .ok events
  | channel :: rest, events, had, lastErr =>
    if max ≤ events.length then
      if events.isEmpty ∧ ¬had then
        .error (lastErr.getD "No event channels available.")
      else .ok events
    else
      match collect_channel_events channel (env channel) (max - events.length) with
      | .ok channelEvents => wevtapiGo env max rest (events ++ channelEvents) true lastErr
      | .error e =>
        if channel = "Security" then wevtapiGo env max rest events had (some e)
        else .error e

/-- logs/windows.rs collect_with_wevtapi. -/
def collect_with_wevtapi (env : String → ChanOut) (max : Nat)
    (channels : List String) : Except String (List NormalizedEvent) :=
  wevtapiGo env max channels [] false none

/-- logs/windows.rs DEFAULT_CHANNELS. -/
def DEFAULT_CHANNELS : List String := ["Application", "System", "Security"]

/-- logs/windows.rs normalize_channels: trim and lowercase each requested
name, keep only the three known channels without duplicates, and fall back
to the default channel list when nothing survives. -/
def normalize_channels (channels : Option (List String)) : List String :=
  let selected :=
    match channels with
    | some values =>
      values.foldl
        (fun selected value =>
          let normalized :=
            if asciiLower (rustTrim value) == "application" then some "Application"
            else if asciiLower (rustTrim value) == "system" then some "System"
            else if asciiLower (rustTrim value) == "security" then some "Security"
            else none
          match normalized with
          | some channel =>
            if selected.contains channel then selected else selected ++ [channel]
          | none => selected)
        []
    | none => []
  if selected.isEmpty then DEFAULT_CHANNELS else selected

/-- logs/windows.rs collect_events_range_with_channels (windows build):
clamp max, normalize the channel list, and return the drained events; a
collect_with_wevtapi error is mapped to the empty event list, discarding
the error string. -/
def collect_events_range_with_channels (env : String → ChanOut)
    (maxEvents : Option Nat) (channels : Option (List String)) :
    List NormalizedEvent :=
  let max := Nat.min (maxEvents.getD 2000) 10000
  if max = 0 then [] else
  match collect_with_wevtapi env max (normalize_channels channels) with
  | .ok events => events
  | .error _ => []

/-- logs/windows.rs map_category: the windows classifier looks only at the
channel name and knows only the security and system buckets. -/
def windows_map_category (log_name : String) : String :=
  let lower := asciiLower log_name
  if containsSubstr lower "security" then "security"
  else if containsSubstr lower "system" then "system"
  else "application"

/-- logs/macos.rs map_category: audit, then auth or security, then kernel
or system, over the combined category, subsystem and provider string. -/
def macos_map_category (category subsystem : Option String) (provider : String) : String :=
  let lower := asciiLower (combineValues [category, subsystem, some provider])
  if containsSubstr lower "audit" then "audit"
  else if containsSubstr lower "auth" || containsSubstr lower "security" then "security"
  else if containsSubstr lower "kernel" || containsSubstr lower "system" then "system"
  else "application"

/-! ### Shared sample data for concrete instantiations -/

/-- A concrete normalized event used as rendered-event input data. -/
def sampleEvent : NormalizedEvent :=
  { id := "id0"
    timestamp := "t0"
    os := "windows"
    log_name := "Application"
    category := "application"
    provider := "prov"
    event_id := some 7
    severity := "information"
    message := "hello"
    imported := false }

/-! ### C1 helpers -/

theorem hexDigitChar_lower (m : Nat) : isLowerHexDigit (hexDigitChar (m % 16)) = true := by
  have h : m % 16 < 16 := Nat.mod_lt _ (by norm_num)
  have all16 : ∀ k < 16, isLowerHexDigit (hexDigitChar k) = true := by decide
  exact all16 _ h

theorem hexDigits16_length (n : Nat) : (hexDigits16 n).length = 16 := by
  simp [hexDigits16]

theorem hexDigits16_all (n : Nat) : (hexDigits16 n).all isLowerHexDigit = true := by
  rw [List.all_eq_true]
  intro c hc
  simp only [hexDigits16, List.mem_map, List.mem_reverse, List.mem_range] at hc
  obtain ⟨i, _, rfl⟩ := hc
  exact hexDigitChar_lower _

/-- C1: a crash record built from a scanner-discovered artifact gets its id
from the seed string os|source|crashType|pathOrSummary (the raw path when
present, else the summary) through the 64-bit DefaultHasher, rendered as
"imported-" followed by exactly 16 lowercase hex digits; the id is a pure
function of that seed, so it is unchanged across runs and across re-imports
of an unchanged artifact (the code, suspected component and timestamp
arguments do not influence it). -/
theorem C1_stable_import_identity (os source crash_type summary timestamp timestamp2 : String)
    (code code2 suspected suspected2 : Option String) (raw_path : Option String) :
    (build_imported_crash os source crash_type code summary suspected raw_path timestamp).id
        = stable_id (os ++ "|" ++ source ++ "|" ++ crash_type ++ "|" ++ raw_path.getD summary)
      ∧ (∃ t, (build_imported_crash os source crash_type code summary suspected raw_path timestamp).id
            = "imported-" ++ t ∧ t.length = 16 ∧ t.data.all isLowerHexDigit = true)
      ∧ (build_imported_crash os source crash_type code summary suspected raw_path timestamp).id
        = (build_imported_crash os source crash_type code2 summary suspected2 raw_path timestamp2).id := by
  refine ⟨rfl, ⟨String.mk (hexDigits16 (defaultHashStr
    (os ++ "|" ++ source ++ "|" ++ crash_type ++ "|" ++ raw_path.getD summary))), rfl, ?_, ?_⟩, rfl⟩
  · show (hexDigits16 _).length = 16
    exact hexDigits16_length _
  · exact hexDigits16_all _

/-! ### C2 helpers -/

theorem processLines_length_le (P : String → Option NormalizedEvent) (max : Nat) :
    ∀ (lines : List (Option String)) (events : List NormalizedEvent) (pf rf : Nat),
      events.length < max → (processLines P max lines events pf rf).1.length ≤ max := by
  intro lines
  induction lines with
  | nil =>
    intro events pf rf h
    simpa [processLines] using Nat.le_of_lt h
  | cons l rest ih =>
    intro events pf rf h
    cases l with
    | none =>
      simpa [processLines] using ih events pf (rf + 1) h
    | some line =>
      by_cases ht : trimEmpty line
      · simpa [processLines, ht] using ih events pf rf h
      · simp only [processLines, ht, Bool.false_eq_true, if_false]
        cases hp : P line with
        | some event =>
          by_cases hm : max ≤ events.length + 1
          · simp [hm]
            omega
          · simp only [hm, if_false]
            exact ih (events ++ [event]) pf rf
              (by simp only [List.length_append, List.length_singleton]; omega)
        | none =>
          exact ih events (pf + 1) rf h

/-- The events a subprocess collection returns are exactly the loop result
(the wait outcome only adds diagnostics). -/
theorem collectSub_ok_events (S : SubStrings) (P : String → Option NormalizedEvent)
    (maxEvents : Option Nat) (lines : List (Option String)) (wait : WaitOutcome) :
    (collectSub S P maxEvents (.ok lines wait)).events =
      (if Nat.min (maxEvents.getD 2000) 10000 = 0 then []
       else (processLines P (Nat.min (maxEvents.getD 2000) 10000) lines [] 0 0).1) := by
  unfold collectSub
  by_cases h : Nat.min (maxEvents.getD 2000) 10000 = 0
  · simp [h]
  · simp only [h, if_false]
    cases wait with
    | success => rfl
    | exited status =>
      by_cases he : (processLines P (Nat.min (maxEvents.getD 2000) 10000) lines [] 0 0).1.isEmpty
        <;> simp [he]
    | waitFail e =>
      by_cases he : (processLines P (Nat.min (maxEvents.getD 2000) 10000) lines [] 0 0).1.isEmpty
        <;> simp [he]

/-- C2: import_host_crashes clamps the caller limit into [1, 2000] and
returns at most that many records; the subprocess collectors clamp
maxEvents (default 2000) to at most 10000 and return at most that many
events, and maxEvents = 0 returns the empty default result (no events,
no warnings, no errors) immediately. -/
theorem C2_bounded_results (parsed : List CrashRecord) (limit : Nat) (S : SubStrings)
    (P : String → Option NormalizedEvent) (maxEvents : Option Nat) (outcome : SpawnOutcome) :
    (import_host_crashes parsed limit).length ≤ clampNat limit 1 2000
      ∧ 1 ≤ clampNat limit 1 2000
      ∧ clampNat limit 1 2000 ≤ 2000
      ∧ (collectSub S P maxEvents outcome).events.length
          ≤ Nat.min (maxEvents.getD 2000) 10000
      ∧ (collectSub S P maxEvents outcome).events.length ≤ 10000
      ∧ collectSub S P (some 0) outcome = {}
      ∧ collectSub S P none outcome = collectSub S P (some 2000) outcome := by
  have hclamp1 : 1 ≤ clampNat limit 1 2000 := Nat.le_max_left 1 _
  have hclamp2 : clampNat limit 1 2000 ≤ 2000 :=
    Nat.max_le.mpr ⟨by norm_num, Nat.min_le_right _ _⟩
  have hlen : (import_host_crashes parsed limit).length ≤ clampNat limit 1 2000 := by
    unfold import_host_crashes dedupe_and_limit
    exact List.length_take_le _ _
  have hevents : (collectSub S P maxEvents outcome).events.length
      ≤ Nat.min (maxEvents.getD 2000) 10000 := by
    cases outcome with
    | spawnFail e =>
      unfold collectSub
      by_cases h : Nat.min (maxEvents.getD 2000) 10000 = 0 <;> simp [h]
    | noStdout =>
      unfold collectSub
      by_cases h : Nat.min (maxEvents.getD 2000) 10000 = 0 <;> simp [h]
    | ok lines wait =>
      rw [collectSub_ok_events]
      by_cases h : Nat.min (maxEvents.getD 2000) 10000 = 0
      · simp [h]
      · simp only [h, if_false]
        exact processLines_length_le P _ lines [] 0 0
          (by simpa using Nat.pos_of_ne_zero h)
  refine ⟨hlen, hclamp1, hclamp2, hevents, le_trans hevents (Nat.min_le_right _ _), ?_, ?_⟩
  · unfold collectSub
    rfl
  · rfl

/-! ### C3: the category classifier -/

/-- The category cascade exactly as the specification sentence states it,
written from the claim text for comparison with the source classifiers:
audit; else any of auth, ssh, sudo, security; else any of kernel, systemd,
dbus, udev, system; else application. -/
def spec_category_rules (s : String) : String :=
  let lower := asciiLower s
  if containsSubstr lower "audit" then "audit"
  else if containsSubstr lower "auth" || containsSubstr lower "ssh"
      || containsSubstr lower "sudo" || containsSubstr lower "security" then "security"
  else if containsSubstr lower "kernel" || containsSubstr lower "systemd"
      || containsSubstr lower "dbus" || containsSubstr lower "udev"
      || containsSubstr lower "system" then "system"
  else "application"

/-- C3 counterexample: the claimed keyword rules disagree with every
adapter.  A channel named System (with the unknown provider) contains the
claimed keyword system and no earlier keyword, so the claim classifies it
as system, but the linux classifier has no bare system keyword and yields
application; a macos subsystem/provider sshd is security under the claimed
rules but application in macos map_category (no ssh keyword there); a
windows channel Audit is audit under the claimed rules but application in
the windows classifier (no audit bucket). -/
theorem C3_counterexample :
    spec_category_rules (combineValues [some "System", none, none, none, some "unknown"])
        = "system"
      ∧ map_category [some "System", none, none, none, some "unknown"] = "application"
      ∧ spec_category_rules (combineValues [none, some "sshd", some "sshd"]) = "security"
      ∧ macos_map_category none (some "sshd") "sshd" = "application"
      ∧ spec_category_rules "Audit" = "audit"
      ∧ windows_map_category "Audit" = "application"
      ∧ ("system" : String) ≠ "application" := by
  refine ⟨by decide, by decide, by decide, by decide, by decide, by decide, by decide⟩

/-- C3 (amended): each adapter lower-cases its combined input and applies
ordered keyword rules, but with per-adapter keyword sets.  The journal
(linux) classifier uses audit; else auth, ssh, sudo, security; else
kernel, systemd, dbus, udev; else application.  The windows classifier
checks only the channel name for security, then system.  The macos
classifier uses audit; else auth, security; else kernel, system.  In every
adapter an input containing security and no earlier keyword classifies as
security. -/
theorem C3_category_cascades (values : List (Option String)) (log_name : String)
    (category subsystem : Option String) (provider : String) :
    (containsSubstr (asciiLower (combineValues values)) "audit" = true →
        map_category values = "audit")
      ∧ (containsSubstr (asciiLower (combineValues values)) "audit" = false →
          (containsSubstr (asciiLower (combineValues values)) "auth"
            || containsSubstr (asciiLower (combineValues values)) "ssh"
            || containsSubstr (asciiLower (combineValues values)) "sudo"
            || containsSubstr (asciiLower (combineValues values)) "security") = true →
          map_category values = "security")
      ∧ (containsSubstr (asciiLower (combineValues values)) "audit" = false →
          (containsSubstr (asciiLower (combineValues values)) "auth"
            || containsSubstr (asciiLower (combineValues values)) "ssh"
            || containsSubstr (asciiLower (combineValues values)) "sudo"
            || containsSubstr (asciiLower (combineValues values)) "security") = false →
          (containsSubstr (asciiLower (combineValues values)) "kernel"
            || containsSubstr (asciiLower (combineValues values)) "systemd"
            || containsSubstr (asciiLower (combineValues values)) "dbus"
            || containsSubstr (asciiLower (combineValues values)) "udev") = true →
          map_category values = "system")
      ∧ (containsSubstr (asciiLower (combineValues values)) "audit" = false →
          (containsSubstr (asciiLower (combineValues values)) "auth"
            || containsSubstr (asciiLower (combineValues values)) "ssh"
            || containsSubstr (asciiLower (combineValues values)) "sudo"
            || containsSubstr (asciiLower (combineValues values)) "security") = false →
          (containsSubstr (asciiLower (combineValues values)) "kernel"
            || containsSubstr (asciiLower (combineValues values)) "systemd"
            || containsSubstr (asciiLower (combineValues values)) "dbus"
            || containsSubstr (asciiLower (combineValues values)) "udev") = false →
          map_category values = "application")
      ∧ (containsSubstr (asciiLower log_name) "security" = true →
          windows_map_category log_name = "security")
      ∧ (containsSubstr (asciiLower log_name) "security" = false →
          containsSubstr (asciiLower log_name) "system" = true →
          windows_map_category log_name = "system")
      ∧ (containsSubstr (asciiLower log_name) "security" = false →
          containsSubstr (asciiLower log_name) "system" = false →
          windows_map_category log_name = "application")
      ∧ (containsSubstr (asciiLower (combineValues [category, subsystem, some provider]))
            "audit" = false →
          (containsSubstr (asciiLower (combineValues [category, subsystem, some provider])) "auth"
            || containsSubstr (asciiLower (combineValues [category, subsystem, some provider]))
                "security") = true →
          macos_map_category category subsystem provider = "security") := by
  refine ⟨?_, ?_, ?_, ?_, ?_, ?_, ?_, ?_⟩
  · intro h1
    simp [map_category, h1]
  · intro h1 h2
    simp [map_category, h1, h2]
  · intro h1 h2 h3
    simp only [Bool.or_eq_false_iff] at h2
    obtain ⟨⟨⟨ha, hb⟩, hc⟩, hd⟩ := h2
    simp [map_category, h1, ha, hb, hc, hd, h3]
  · intro h1 h2 h3
    simp only [Bool.or_eq_false_iff] at h2 h3
    obtain ⟨⟨⟨ha, hb⟩, hc⟩, hd⟩ := h2
    obtain ⟨⟨⟨hk, hs⟩, hdb⟩, hu⟩ := h3
    simp [map_category, h1, ha, hb, hc, hd, hk, hs, hdb, hu]
  · intro h1
    simp [windows_map_category, h1]
  · intro h1 h2
    simp [windows_map_category, h1, h2]
  · intro h1 h2
    simp [windows_map_category, h1, h2]
  · intro h1 h2
    simp [macos_map_category, h1, h2]

/-- C3 witness: a channel named Security (with no earlier keyword present)
classifies as security in the linux and windows classifiers. -/
theorem C3_category_witness :
    map_category [some "Security", none, none, none, some "unknown"] = "security"
      ∧ windows_map_category "Security" = "security" := by
  have h := C3_category_cascades [some "Security", none, none, none, some "unknown"]
    "Security" none none "unknown"
  exact ⟨h.2.1 (by decide) (by decide), h.2.2.2.2.1 (by decide)⟩

/-! ### C4: warnings versus errors in the subprocess collectors -/

/-- A non-empty error list only occurs when no events were collected: every
error path of the subprocess collector returns an empty event list. -/
theorem collectSub_error_only_if_no_events (S : SubStrings)
    (P : String → Option NormalizedEvent) (maxEvents : Option Nat)
    (outcome : SpawnOutcome) :
    (collectSub S P maxEvents outcome).events = []
      ∨ (collectSub S P maxEvents outcome).errors = [] := by
  unfold collectSub
  by_cases h : Nat.min (maxEvents.getD 2000) 10000 = 0
  · simp [h]
  · simp only [h, if_false]
    cases outcome with
    | spawnFail e => left; rfl
    | noStdout => left; rfl
    | ok lines wait =>
      cases wait with
      | success => right; rfl
      | exited status =>
        by_cases he :
            (processLines P (Nat.min (maxEvents.getD 2000) 10000) lines [] 0 0).1.isEmpty
        · left
          simp only [he, if_true]
          exact List.isEmpty_iff.mp he
        · right
          simp [he]
      | waitFail e =>
        by_cases he :
            (processLines P (Nat.min (maxEvents.getD 2000) 10000) lines [] 0 0).1.isEmpty
        · left
          simp only [he, if_true]
          exact List.isEmpty_iff.mp he
        · right
          simp [he]

/-- The serde black box of the C4 scenario: two specific lines are
malformed, every other line parses to a JSON object with a MESSAGE. -/
def c4JsonParse (s : String) : Option Json :=
  if s == "bad1" || s == "bad2" then none
  else some (Json.obj [("MESSAGE", Json.str ("event " ++ s))])

/-- The linux line parser over that black box. -/
def c4Parse : String → Option NormalizedEvent :=
  parse_journal_line c4JsonParse (fun _ => none) "uuid-0" "2024-01-01T00:00:00+00:00"

/-- The C4 stream: three valid JSON lines then two malformed ones. -/
def c4Lines : List (Option String) :=
  [some "l1", some "l2", some "l3", some "bad1", some "bad2"]

/-- The collection result of the C4 scenario: the subprocess exits with a
non-zero status after the five lines were read. -/
def c4Result : CollectionResult :=
  collectSub linuxStrings c4Parse none (.ok c4Lines (.exited "1"))

/-- C4: with 3 valid and 2 malformed lines and a non-zero exit, the call
returns exactly 3 events, exactly one aggregate warning about the
malformed lines (the non-zero exit adds a second, distinct warning), and
an empty error list; in general a non-empty error list occurs only when no
events were collected, and the wait outcome (which produces the warnings)
never changes the already-collected events. -/
theorem C4_degraded_but_non_empty (S : SubStrings) (P : String → Option NormalizedEvent)
    (maxEvents : Option Nat) (outcome : SpawnOutcome) (lines : List (Option String))
    (w w2 : WaitOutcome) :
    c4Result.events.length = 3
      ∧ c4Result.warnings = ["Skipped 2 non-JSON or malformed journal entries.",
          "journalctl exited with status 1."]
      ∧ (c4Result.warnings.filter (fun m => containsSubstr m "malformed")).length = 1
      ∧ c4Result.errors = []
      ∧ ((collectSub S P maxEvents outcome).events = []
          ∨ (collectSub S P maxEvents outcome).errors = [])
      ∧ (collectSub S P maxEvents (.ok lines w)).events
          = (collectSub S P maxEvents (.ok lines w2)).events := by
  refine ⟨by decide, by decide, by decide, by decide,
    collectSub_error_only_if_no_events S P maxEvents outcome, ?_⟩
  rw [collectSub_ok_events, collectSub_ok_events]

/-! ### C5: hard failures -/

/-- C5 counterexample: the windows adapter does not surface a hard failure
in any errors list.  collect_with_wevtapi produces an error string when
every channel fails to open, but the public
collect_events_range_with_channels maps it to the bare empty event list,
and two different hard failures (win32 codes 15 and 31) yield identical
outputs, so the failure is not recoverable from the result. -/
theorem C5_counterexample :
    collect_with_wevtapi (fun _ => ChanOut.openFail 15) 2000 DEFAULT_CHANNELS
        = .error "EvtQuery failed for Application: win32 15"
      ∧ collect_events_range_with_channels (fun _ => ChanOut.openFail 15) none none = []
      ∧ collect_events_range_with_channels (fun _ => ChanOut.openFail 31) none none
          = collect_events_range_with_channels (fun _ => ChanOut.openFail 15) none none := by
  exact ⟨by rfl, by rfl, by rfl⟩

/-- C5 (amended): no adapter panics on a hard failure (every embedded call
is total and returns data).  The subprocess adapters (linux, macos) return
zero events with the failure pushed as the only entry of the result errors
list, both when the process could not be spawned and when it exposed no
stdout; the windows adapter also returns zero events on a hard failure,
but its public result is only the event list, so the error message from
the native layer is discarded rather than surfaced. -/
theorem C5_hard_failure_handling (S : SubStrings) (P : String → Option NormalizedEvent)
    (maxEvents : Option Nat) (e : String)
    (h : Nat.min (maxEvents.getD 2000) 10000 ≠ 0)
    (env : String → ChanOut) (channels : Option (List String)) (msg : String)
    (henv : collect_with_wevtapi env (Nat.min (maxEvents.getD 2000) 10000)
        (normalize_channels channels) = .error msg) :
    collectSub S P maxEvents (.spawnFail e) = { errors := [S.spawnFailMsg e] }
      ∧ collectSub S P maxEvents .noStdout = { errors := [S.noStdoutMsg] }
      ∧ collect_events_range_with_channels env maxEvents channels = [] := by
  refine ⟨?_, ?_, ?_⟩
  · unfold collectSub
    simp [h]
  · unfold collectSub
    simp [h]
  · unfold collect_events_range_with_channels
    simp [h, henv]

/-- C5 witness: the default-limit linux collector surfaces a failed spawn
as its only error, and the windows adapter returns the empty list when
every channel open fails with win32 code 15. -/
theorem C5_hard_failure_witness :
    Nat.min ((none : Option Nat).getD 2000) 10000 ≠ 0
      ∧ collectSub linuxStrings c4Parse none (.spawnFail "No such file or directory")
          = { errors := ["Failed to run journalctl: No such file or directory"] }
      ∧ collect_events_range_with_channels (fun _ => ChanOut.openFail 15) none none = [] := by
  have h := C5_hard_failure_handling linuxStrings c4Parse none "No such file or directory"
    (by decide) (fun _ => ChanOut.openFail 15) none
    "EvtQuery failed for Application: win32 15" (by rfl)
  exact ⟨by decide, h.1, h.2.2⟩

/-! ### C6 helpers -/

theorem strMk_ne_empty {l : List Char} (h : l ≠ []) : String.mk l ≠ "" :=
  fun contra => h (congrArg String.data contra)

theorem append_ne_empty_left (a b : String) (h : a ≠ "") : a ++ b ≠ "" := by
  intro contra
  have hd := congrArg String.data contra
  simp only [String.data_append] at hd
  rcases List.append_eq_nil.mp hd with ⟨ha, _⟩
  exact h (String.ext (by simpa using ha))

theorem sanitize_message_ne_empty (msg : String) : sanitize_message msg ≠ "" := by
  unfold sanitize_message
  by_cases h : trimEmpty msg
  · simp [h]
  · simp only [h, Bool.false_eq_true, if_false]
    exact fun contra => h (contra ▸ (by decide : trimEmpty "" = true))

theorem pick_map_value_ne_empty :
    ∀ (keys : List String) (entries : List (String × String)) (v : String),
      pick_map_value entries keys = some v → v ≠ "" := by
  intro keys
  induction keys with
  | nil =>
    intro entries v h
    simp [pick_map_value] at h
  | cons key rest ih =>
    intro entries v h
    unfold pick_map_value at h
    cases hg : mapGet entries key with
    | none =>
      simp only [hg] at h
      exact ih entries v h
    | some value =>
      simp only [hg] at h
      by_cases ht : trimEmpty value
      · simp only [ht, if_true] at h
        exact ih entries v h
      · simp only [ht, Bool.false_eq_true, if_false, Option.some.injEq] at h
        rw [← h]
        unfold rustTrim
        refine strMk_ne_empty ?_
        intro hnil
        exact ht (by simp [trimEmpty, hnil])

theorem build_imported_crash_summary (os source crash_type : String) (code : Option String)
    (summary : String) (sc rp : Option String) (ts : String) :
    (build_imported_crash os source crash_type code summary sc rp ts).summary = summary := rfl

theorem normalizeJournal_message (tsOf : Int → Option String) (fid now : String) (v : Json) :
    (normalizeJournal tsOf fid now v).message
      = sanitize_message ((getString v "MESSAGE").getD "No log message.") := by
  unfold normalizeJournal
  split <;> rfl

theorem parse_linux_report_summary_ne (lines : List String) (ext : String)
    (fileName : Option String) (pathStr ts : String) :
    (parse_linux_report lines ext fileName pathStr ts).summary ≠ "" := by
  unfold parse_linux_report
  by_cases hc : eqIgnoreAsciiCase ext "crash"
  · simp only [hc, if_true, build_imported_crash_summary]
    cases hT : pick_map_value (fieldEntries (Char.ofNat 58) lines) ["Title"] with
    | some title =>
      simp only [hT]
      exact pick_map_value_ne_empty _ _ _ hT
    | none =>
      simp only [hT]
      have hct : ((pick_map_value (fieldEntries (Char.ofNat 58) lines) ["ProblemType"]).getD
          "Crash") ≠ "" := by
        cases hP : pick_map_value (fieldEntries (Char.ofNat 58) lines) ["ProblemType"] with
        | some c =>
          simpa [hP] using pick_map_value_ne_empty _ _ _ hP
        | none => simp [hP]
      cases hE : pick_map_value (fieldEntries (Char.ofNat 58) lines)
          ["ExecutablePath", "ProcCmdline"] with
      | some exec =>
        simp only [hE]
        exact append_ne_empty_left _ _ (append_ne_empty_left _ _ hct)
      | none =>
        simp only [hE]
        exact append_ne_empty_left _ _ (append_ne_empty_left _ _ hct)
  · simp only [hc, Bool.false_eq_true, if_false, build_imported_crash_summary]
    exact append_ne_empty_left _ _ (by decide)

/-- C6: the event message and the crash summary are never the empty
string.  sanitize_message substitutes the fixed placeholder whenever the
extracted text trims to empty (or was missing, in which case the same
placeholder was already chosen), so a normalized journal event always has
a non-empty message; the apport/coredump crash parser always produces a
non-empty summary, and when neither a Title field nor an executable is
extractable the summary falls back to crashType plus the artifact file
name. -/
theorem C6_never_empty_text (msg : String) (tsOf : Int → Option String) (fid now : String)
    (v : Json) (lines : List String) (ext : String) (fileName : Option String)
    (pathStr ts : String) :
    sanitize_message msg ≠ ""
      ∧ (trimEmpty msg = true → sanitize_message msg = "No log message.")
      ∧ (normalizeJournal tsOf fid now v).message ≠ ""
      ∧ (parse_linux_report lines ext fileName pathStr ts).summary ≠ ""
      ∧ (eqIgnoreAsciiCase ext "crash" = true →
          pick_map_value (fieldEntries (Char.ofNat 58) lines) ["Title"] = none →
          pick_map_value (fieldEntries (Char.ofNat 58) lines)
              ["ExecutablePath", "ProcCmdline"] = none →
          (parse_linux_report lines ext fileName pathStr ts).summary
            = ((pick_map_value (fieldEntries (Char.ofNat 58) lines) ["ProblemType"]).getD
                "Crash") ++ ": " ++ trim_file_name fileName) := by
  refine ⟨sanitize_message_ne_empty msg, ?_, ?_, parse_linux_report_summary_ne _ _ _ _ _, ?_⟩
  · intro h
    simp [sanitize_message, h]
  · rw [normalizeJournal_message]
    exact sanitize_message_ne_empty _
  · intro hc hT hE
    unfold parse_linux_report
    simp only [hc, if_true, build_imported_crash_summary, hT, hE]

/-- C6 witness: a whitespace-only message is replaced by the placeholder,
and a crash report with only a ProblemType field gets the file-name
fallback summary. -/
theorem C6_never_empty_witness :
    trimEmpty " " = true
      ∧ sanitize_message " " = "No log message."
      ∧ (parse_linux_report ["ProblemType: Crash"] "crash" (some "x.crash")
          "/var/crash/x.crash" "ts").summary = "Crash: x.crash" := by
  have h := C6_never_empty_text " " (fun _ => none) "u" "n" (Json.obj [])
    ["ProblemType: Crash"] "crash" (some "x.crash") "/var/crash/x.crash" "ts"
  refine ⟨by decide, h.2.1 (by decide), ?_⟩
  have h5 := h.2.2.2.2 (by decide) (by decide) (by decide)
  exact h5.trans (by decide)

/-! ### C7 helpers -/

theorem dedupById_not_seen :
    ∀ (l : List CrashRecord) (seen : List String) (c : CrashRecord),
      c ∈ dedupById l seen → seen.contains c.id = false := by
  intro l
  induction l with
  | nil =>
    intro seen c hc
    simp [dedupById] at hc
  | cons r rest ih =>
    intro seen c hc
    unfold dedupById at hc
    by_cases hr : seen.contains r.id
    · simp only [hr, if_true] at hc
      exact ih _ _ hc
    · simp only [hr, Bool.false_eq_true, if_false] at hc
      rcases List.mem_cons.mp hc with hcr | hcrest
      · subst hcr
        exact Bool.eq_false_iff.mpr hr
      · have hfb := ih _ _ hcrest
        simp only [List.contains_cons, Bool.or_eq_false_iff] at hfb
        exact hfb.2
  
theorem dedupById_pairwise :
    ∀ (l : List CrashRecord) (seen : List String),
      (dedupById l seen).Pairwise (fun a b => a.id ≠ b.id) := by
  intro l
  induction l with
  | nil =>
    intro seen
    simp [dedupById]
  | cons r rest ih =>
    intro seen
    unfold dedupById
    by_cases hr : seen.contains r.id
    · simp only [hr, if_true]
      exact ih _
    · simp only [hr, Bool.false_eq_true, if_false]
      refine List.Pairwise.cons ?_ (ih _)
      intro b hb he
      have hfb := dedupById_not_seen rest (r.id :: seen) b hb
      simp only [List.contains_cons, Bool.or_eq_false_iff, beq_eq_false_iff_ne] at hfb
      exact hfb.1 he.symm

theorem dedupById_sublist :
    ∀ (l : List CrashRecord) (seen : List String), (dedupById l seen).Sublist l := by
  intro l
  induction l with
  | nil =>
    intro seen
    simp [dedupById]
  | cons r rest ih =>
    intro seen
    unfold dedupById
    by_cases hr : seen.contains r.id
    · simp only [hr, if_true]
      exact (ih _).cons r
    · simp only [hr, Bool.false_eq_true, if_false]
      exact (ih _).cons₂ r

theorem tsDesc_trans (a b c : CrashRecord) :
    tsDesc a b = true → tsDesc b c = true → tsDesc a c = true := by
  simp only [tsDesc, decide_eq_true_eq]
  exact fun h1 h2 => le_trans h2 h1

theorem tsDesc_total (a b : CrashRecord) : (tsDesc a b || tsDesc b a) = true := by
  simp only [tsDesc, Bool.or_eq_true, decide_eq_true_eq]
  exact le_total b.timestamp a.timestamp

/-- C7: the importer post-processing first removes records whose id equals
the id of an earlier record, then stable-sorts the survivors by timestamp
descending, then truncates to the limit; hence the output has pairwise
distinct ids, is ordered by timestamp descending, has length at most the
limit, and contains only input records. -/
theorem C7_dedupe_sort_truncate (crashes : List CrashRecord) (limit : Nat) :
    (dedupe_and_limit crashes limit).length ≤ limit
      ∧ (dedupe_and_limit crashes limit).Pairwise (fun a b => a.id ≠ b.id)
      ∧ (dedupe_and_limit crashes limit).Pairwise
          (fun a b => b.timestamp ≤ a.timestamp)
      ∧ dedupe_and_limit crashes limit ⊆ crashes := by
  have hdistinct : ((dedupById crashes []).mergeSort tsDesc).Pairwise
      (fun a b => a.id ≠ b.id) := by
    refine ((List.mergeSort_perm (dedupById crashes []) tsDesc).pairwise_iff
      (fun hxy he => hxy he.symm)).mpr (dedupById_pairwise _ _)
  have hsorted : ((dedupById crashes []).mergeSort tsDesc).Pairwise
      (fun a b => b.timestamp ≤ a.timestamp) := by
    have hs := @List.sorted_mergeSort CrashRecord tsDesc tsDesc_trans tsDesc_total
      (dedupById crashes [])
    exact hs.imp (fun h => by simpa [tsDesc, decide_eq_true_eq] using h)
  refine ⟨?_, ?_, ?_, ?_⟩
  · unfold dedupe_and_limit
    exact List.length_take_le _ _
  · exact List.Pairwise.sublist (List.take_sublist _ _) hdistinct
  · exact List.Pairwise.sublist (List.take_sublist _ _) hsorted
  · intro c hc
    have h1 := (List.take_sublist _ _).subset hc
    have h2 := (List.mergeSort_perm (dedupById crashes []) tsDesc).subset h1
    exact (dedupById_sublist _ _).subset h2

/-! ### C8: the Security-channel asymmetry of the windows adapter -/

/-- C8: access denial when opening the Security channel yields an ok empty
result for that channel and the sequential loop continues, so the call
succeeds with the events of the other channels; any failure (access denied
or otherwise) on a non-Security channel makes the whole call return that
error, independent of what the remaining channels would have produced. -/
theorem C8_security_channel_asymmetry (a b : List NormalizedEvent) (max : Nat)
    (env env2 : String → ChanOut) (code : Nat)
    (hlen : a.length + b.length < max)
    (h1 : 1 ≤ max)
    (hApp : env "Application" = ChanOut.drained a)
    (hSys : env "System" = ChanOut.drained b)
    (hSec : env "Security" = ChanOut.openFail ERROR_ACCESS_DENIED)
    (hBad : env2 "Application" = ChanOut.openFail code) :
    collect_channel_events "Security" (ChanOut.openFail ERROR_ACCESS_DENIED) max = .ok []
      ∧ collect_with_wevtapi env max DEFAULT_CHANNELS = .ok (a ++ b)
      ∧ collect_with_wevtapi env2 max DEFAULT_CHANNELS
          = .error ("EvtQuery failed for " ++ "Application" ++ ": win32 " ++ toString code) := by
  refine ⟨?_, ?_, ?_⟩
  · unfold collect_channel_events
    simp
  · unfold collect_with_wevtapi DEFAULT_CHANNELS
    have g1 : ¬ (max ≤ 0) := by omega
    have g2 : ¬ (max ≤ a.length) := by omega
    have g3 : ¬ (max ≤ a.length + b.length) := by omega
    have gtake1 : a.take max = a := List.take_of_length_le (by omega)
    have gtake2 : b.take (max - a.length) = b := List.take_of_length_le (by omega)
    simp [wevtapiGo, hApp, hSys, hSec, collect_channel_events, g1, g2, g3, gtake1, gtake2]
  · unfold collect_with_wevtapi DEFAULT_CHANNELS
    have g1 : ¬ (max ≤ 0) := by omega
    have hne : ¬ (code = ERROR_ACCESS_DENIED ∧ ("Application" : String) = "Security") := by
      intro hcontra
      exact absurd hcontra.2 (by decide)
    have hne2 : ¬ (("Application" : String) = "Security") := by decide
    simp [wevtapiGo, hBad, collect_channel_events, g1, hne, hne2]

/-- The C8 concrete environment: Application drains one event, System
drains none, Security is access denied. -/
def c8Env : String → ChanOut := fun ch =>
  if ch == "Application" then .drained [sampleEvent]
  else if ch == "System" then .drained []
  else .openFail ERROR_ACCESS_DENIED

/-- The C8 failing environment: every channel open is access denied. -/
def c8EnvBad : String → ChanOut := fun _ => .openFail ERROR_ACCESS_DENIED

/-- C8 witness: with the default channels and limit 2000, the denied
Security channel still lets the call return the Application event, while
the same denial on Application is a hard error for the whole call. -/
theorem C8_security_channel_witness :
    collect_channel_events "Security" (ChanOut.openFail ERROR_ACCESS_DENIED) 2000 = .ok []
      ∧ collect_with_wevtapi c8Env 2000 DEFAULT_CHANNELS = .ok ([sampleEvent] ++ [])
      ∧ collect_with_wevtapi c8EnvBad 2000 DEFAULT_CHANNELS
          = .error ("EvtQuery failed for " ++ "Application" ++ ": win32 "
              ++ toString ERROR_ACCESS_DENIED) := by
  have h := C8_security_channel_asymmetry [sampleEvent] [] 2000 c8Env c8EnvBad
    ERROR_ACCESS_DENIED (by decide) (by decide) (by rfl) (by rfl) (by rfl) (by rfl)
  exact ⟨h.1, h.2.1, h.2.2⟩

/-! ### C9 helpers -/

theorem scanGo_eq_aux (m : String → Bool) :
    ∀ (n : Nat) (stack : List FsTree), fsSize stack ≤ n →
      ∀ (acc : List (String × Nat)),
        scanGo m stack acc = acc ++ (treeFiles stack).filter (fun x => m x.1) := by
  intro n
  induction n with
  | zero =>
    intro stack h acc
    cases stack with
    | nil => simp [scanGo, treeFiles]
    | cons t rest =>
      exfalso
      cases t <;> simp [fsSize] at h
  | succ n ih =>
    intro stack h acc
    cases stack with
    | nil => simp [scanGo, treeFiles]
    | cons t rest =>
      cases t with
      | file p mt =>
        simp only [scanGo, treeFiles]
        by_cases hm : m p
        · simp only [hm, if_true]
          rw [ih rest (by simp [fsSize] at h; omega) (acc ++ [(p, mt.getD 0)])]
          simp [List.filter_cons, hm]
        · simp only [hm, Bool.false_eq_true, if_false]
          rw [ih rest (by simp [fsSize] at h; omega) acc]
          simp [List.filter_cons, hm]
      | dir p cs =>
        simp only [scanGo, treeFiles]
        refine ih (cs.reverse ++ rest) ?_ acc
        rw [fsSize_append, fsSize_reverse]
        simp [fsSize] at h
        omega
      | dirUnreadable p =>
        simp only [scanGo, treeFiles]
        exact ih rest (by simp [fsSize] at h; omega) acc
      | metaUnreadable p =>
        simp only [scanGo, treeFiles]
        exact ih rest (by simp [fsSize] at h; omega) acc
      | notFile p =>
        simp only [scanGo, treeFiles]
        exact ih rest (by simp [fsSize] at h; omega) acc

/-- The stack traversal collects exactly the matching regular files, in
traversal order, appended to the accumulator. -/
theorem scanGo_eq (m : String → Bool) (stack : List FsTree) (acc : List (String × Nat)) :
    scanGo m stack acc = acc ++ (treeFiles stack).filter (fun x => m x.1) :=
  scanGo_eq_aux m (fsSize stack) stack le_rfl acc

theorem mtimeDesc_trans (a b c : String × Nat) :
    mtimeDesc a b = true → mtimeDesc b c = true → mtimeDesc a c = true := by
  simp only [mtimeDesc, decide_eq_true_eq]
  omega

theorem mtimeDesc_total (a b : String × Nat) : (mtimeDesc a b || mtimeDesc b a) = true := by
  simp only [mtimeDesc, Bool.or_eq_true, decide_eq_true_eq]
  omega

/-- C9: the scanner is a total function of the directory tree (so it
terminates on every tree; symlinks are leaves because symlink metadata is
read without following, so they are never traversed as directories);
entries with unreadable metadata are not files of the tree and never
appear; the result lists the matching files sorted by modification time
descending, truncated to the cap. -/
theorem C9_bounded_scanner (roots : List FsTree) (matcher : String → Bool) (cap : Nat) :
    (scan_files roots matcher cap).length ≤ cap
      ∧ ((((treeFiles roots.reverse).filter (fun x => matcher x.1)).mergeSort
          mtimeDesc).take cap).Pairwise (fun x y => y.2 ≤ x.2)
      ∧ scan_files roots matcher cap
          = ((((treeFiles roots.reverse).filter (fun x => matcher x.1)).mergeSort
              mtimeDesc).take cap).map Prod.fst
      ∧ (∀ p ∈ scan_files roots matcher cap, matcher p = true
          ∧ ∃ mt, (p, mt) ∈ treeFiles roots.reverse) := by
  have heq : scan_files roots matcher cap
      = ((((treeFiles roots.reverse).filter (fun x => matcher x.1)).mergeSort
          mtimeDesc).take cap).map Prod.fst := by
    unfold scan_files
    rw [scanGo_eq]
    simp
  have hsorted : ((((treeFiles roots.reverse).filter (fun x => matcher x.1)).mergeSort
      mtimeDesc).take cap).Pairwise (fun x y => y.2 ≤ x.2) := by
    have hs := @List.sorted_mergeSort (String × Nat) mtimeDesc mtimeDesc_trans mtimeDesc_total
      ((treeFiles roots.reverse).filter (fun x => matcher x.1))
    have := hs.imp (fun h => by simpa [mtimeDesc, decide_eq_true_eq] using h)
    exact List.Pairwise.sublist (List.take_sublist _ _) this
  refine ⟨?_, hsorted, heq, ?_⟩
  · rw [heq]
    simp
  · intro p hp
    rw [heq] at hp
    rcases List.mem_map.mp hp with ⟨pair, hpair, hfst⟩
    have h1 := (List.take_sublist _ _).subset hpair
    have h2 := (List.mergeSort_perm _ mtimeDesc).subset h1
    rcases List.mem_filter.mp h2 with ⟨hmem, hpred⟩
    subst hfst
    exact ⟨hpred, pair.2, by simpa using hmem⟩

/-- The C9 concrete tree: one matching file, one non-matching file, one
non-file entry and one entry with unreadable metadata. -/
def c9Roots : List FsTree :=
  [FsTree.dir "/var/crash"
    [FsTree.file "/var/crash/app.crash" (some 7),
     FsTree.notFile "/var/crash/link",
     FsTree.metaUnreadable "/var/crash/locked",
     FsTree.file "/var/crash/readme.txt" (some 9)]]

/-- The C9 matcher: paths with a .crash extension component. -/
def c9Matcher (p : String) : Bool := containsSubstr p ".crash"

/-- C9 witness: on the concrete tree the scanner returns exactly the one
matching readable file; the skipped entries never appear. -/
theorem C9_bounded_scanner_witness :
    scan_files c9Roots c9Matcher 5 = ["/var/crash/app.crash"]
      ∧ c9Matcher "/var/crash/app.crash" = true
      ∧ ∃ mt, ("/var/crash/app.crash", mt) ∈ treeFiles c9Roots.reverse := by
  have h := C9_bounded_scanner c9Roots c9Matcher 5
  have htf : treeFiles c9Roots.reverse
      = [("/var/crash/readme.txt", 9), ("/var/crash/app.crash", 7)] := by
    simp [c9Roots, treeFiles]
  have hfilter : (treeFiles c9Roots.reverse).filter (fun x => c9Matcher x.1)
      = [("/var/crash/app.crash", 7)] := by
    rw [htf]
    decide
  have hs : scan_files c9Roots c9Matcher 5 = ["/var/crash/app.crash"] := by
    rw [h.2.2.1, hfilter, List.mergeSort_singleton]
    decide
  refine ⟨hs, ?_, ?_⟩
  · exact (h.2.2.2 "/var/crash/app.crash" (by rw [hs]; exact List.mem_singleton.mpr rfl)).1
  · exact (h.2.2.2 "/var/crash/app.crash" (by rw [hs]; exact List.mem_singleton.mpr rfl)).2

/-! ### C10 helpers -/

theorem readLoop_length_le (mb : Nat) :
    ∀ (lines : List (Option String)) (seen : Nat),
      (readLoop mb lines seen).length ≤ lines.length := by
  intro lines
  induction lines with
  | nil =>
    intro seen
    simp [readLoop]
  | cons l rest ih =>
    intro seen
    cases l with
    | none =>
      simp only [readLoop]
      exact le_trans (ih seen) (by simp)
    | some s =>
      simp only [readLoop]
      by_cases hb : mb ≤ seen + s.utf8ByteSize
      · simp [hb]
      · simp only [hb, Bool.false_eq_true, if_false, List.length_cons]
        exact Nat.succ_le_succ (ih _)

theorem readLoop_prefix_lt (mb : Nat) :
    ∀ (lines : List (Option String)) (seen i : Nat),
      i + 1 < (readLoop mb lines seen).length →
      seen + byteSum ((readLoop mb lines seen).take (i + 1)) < mb := by
  intro lines
  induction lines with
  | nil =>
    intro seen i h
    simp [readLoop] at h
  | cons l rest ih =>
    intro seen i h
    cases l with
    | none =>
      simp only [readLoop] at h ⊢
      exact ih seen i h
    | some s =>
      simp only [readLoop] at h ⊢
      by_cases hb : mb ≤ seen + s.utf8ByteSize
      · simp [hb] at h
      · simp only [hb, Bool.false_eq_true, if_false] at h ⊢
        cases i with
        | zero =>
          simp [byteSum]
          omega
        | succ j =>
          have hj : j + 1 < (readLoop mb rest (seen + s.utf8ByteSize)).length := by
            simp at h
            omega
          have hrec := ih (seen + s.utf8ByteSize) j hj
          simp only [List.take_succ_cons, byteSum, List.map_cons, List.sum_cons] at hrec ⊢
          omega

theorem readLoop_all_of_under (mb : Nat) :
    ∀ (lines : List (Option String)) (seen : Nat),
      seen + byteSum (readLoop mb lines seen) < mb →
      readLoop mb lines seen = lines.filterMap id := by
  intro lines
  induction lines with
  | nil =>
    intro seen h
    simp [readLoop]
  | cons l rest ih =>
    intro seen h
    cases l with
    | none =>
      simp only [readLoop] at h ⊢
      simp only [List.filterMap_cons, id]
      exact ih seen h
    | some s =>
      simp only [readLoop] at h ⊢
      by_cases hb : mb ≤ seen + s.utf8ByteSize
      · exfalso
        simp [hb, byteSum] at h
        omega
      · simp only [hb, Bool.false_eq_true, if_false] at h ⊢
        simp only [List.filterMap_cons, id, List.cons.injEq, true_and]
        refine ih (seen + s.utf8ByteSize) ?_
        simp only [byteSum, List.map_cons, List.sum_cons] at h
        simp only [byteSum]
        omega

theorem readLoop_overshoot (mb : Nat) :
    ∀ (lines : List (Option String)) (seen : Nat), seen ≤ mb →
      seen + byteSum (readLoop mb lines seen)
        ≤ mb + ((readLoop mb lines seen).getLastD "").utf8ByteSize := by
  intro lines
  induction lines with
  | nil =>
    intro seen h
    simp [readLoop, byteSum]
    omega
  | cons l rest ih =>
    intro seen h
    cases l with
    | none =>
      simp only [readLoop]
      exact ih seen h
    | some s =>
      simp only [readLoop]
      by_cases hb : mb ≤ seen + s.utf8ByteSize
      · simp only [hb, if_true]
        simp [byteSum, List.getLastD]
        omega
      · simp only [hb, Bool.false_eq_true, if_false]
        have hrec := ih (seen + s.utf8ByteSize) (by omega)
        cases hR : readLoop mb rest (seen + s.utf8ByteSize) with
        | nil =>
          rw [hR] at hrec
          simp [byteSum, List.getLastD] at hrec ⊢
          omega
        | cons r rs =>
          rw [hR] at hrec
          simp only [byteSum, List.map_cons, List.sum_cons, List.getLastD_cons] at hrec ⊢
          omega

/-- C10: in read_lines_limited the byte budget is checked only after a
line has been appended: the line on which the running byte count first
reaches maxBytes is included (the result is cut short of the remaining
readable lines only when the budget was reached), every earlier prefix of
the result stays strictly under maxBytes, the total can exceed maxBytes by
at most the final line (line bytes only; the stripped newlines are never
counted), and only the line cap maxLines bounds the result strictly. -/
theorem C10_byte_budget_after_append (input : List (Option String)) (maxLines maxBytes : Nat) :
    (read_lines_limited input maxLines maxBytes).length ≤ maxLines
      ∧ (∀ i, i + 1 < (read_lines_limited input maxLines maxBytes).length →
          byteSum ((read_lines_limited input maxLines maxBytes).take (i + 1)) < maxBytes)
      ∧ (byteSum (read_lines_limited input maxLines maxBytes) < maxBytes →
          read_lines_limited input maxLines maxBytes = (input.take maxLines).filterMap id)
      ∧ byteSum (read_lines_limited input maxLines maxBytes)
          ≤ maxBytes
            + ((read_lines_limited input maxLines maxBytes).getLastD "").utf8ByteSize := by
  refine ⟨?_, ?_, ?_, ?_⟩
  · exact le_trans (readLoop_length_le maxBytes _ 0) (by simp)
  · intro i h
    have := readLoop_prefix_lt maxBytes (input.take maxLines) 0 i h
    simpa [read_lines_limited] using this
  · intro h
    exact readLoop_all_of_under maxBytes (input.take maxLines) 0 (by simpa using h)
  · have := readLoop_overshoot maxBytes (input.take maxLines) 0 (Nat.zero_le _)
    simpa [read_lines_limited] using this
